import Mathlib

/-!
Verification development for the PoGoBot subscription matching and
notification dispatch engine (src/main.go, second program variant).

Shallow embedding conventions:
* Go `int64` and `int` fields are modelled as `Int`.
* Go `float32`/`float64` values that the matching logic only ever compares
  (coordinates, IV percentages, distances) are modelled as `ℚ`, keeping the
  decision structure decidable; the distance function itself is passed in as
  a parameter `dist : ℚ → ℚ → ℚ → ℚ → ℚ` wherever the Go code calls
  `haversine`, so every theorem about the filtering logic holds for the
  haversine instance in particular.
* The real haversine formula (float64 trigonometry in Go) is modelled
  exactly over the reals for the numeric claims about it.
* The Go maps `sentNotifications : map[string]map[int64]struct{}`,
  `users.All : map[int64]User` and the gorm tables are modelled as
  association lists.
-/

namespace PoGoBot

/-- Go struct `User` (src/main.go lines 1400-1414). -/
structure User where
  id : Int
  notify : Bool
  language : String
  stickers : Bool
  onlyMap : Bool
  cleanup : Bool
  latitude : ℚ
  longitude : ℚ
  maxDistance : Int
  hundoIV : Bool
  zeroIV : Bool
  minIV : Int
  minLevel : Int
deriving DecidableEq

/-- The Go zero value of `User`, returned by a map lookup on a missing key. -/
def defaultUser : User :=
  { id := 0, notify := false, language := "", stickers := false
  , onlyMap := false, cleanup := false, latitude := 0, longitude := 0
  , maxDistance := 0, hundoIV := false, zeroIV := false, minIV := 0, minLevel := 0 }

/-- Go struct `Subscription` (src/main.go lines 1423-1429). -/
structure Subscription where
  userID : Int
  pokemonID : Int
  minIV : Int
  minLevel : Int
  maxDistance : Int
deriving DecidableEq

/-- Go struct `EncounterData` (src/main.go lines 1442-1473), restricted to the
fields the matching engine reads; the pointer fields `IV`, `Level` and
`ExpireTimestamp` are dereferenced unconditionally by the engine (the fetch
query guarantees `iv IS NOT NULL`), so they are modelled as plain values. -/
structure EncounterData where
  id : String
  lat : ℚ
  lon : ℚ
  expireTimestamp : Int
  pokemonID : Int
  iv : ℚ
  level : Int
deriving DecidableEq

/-- Go struct `Encounter` (src/main.go lines 1431-1434): the persisted part of
a Delivery Ledger entry, keyed by encounter id, carrying the expiry. -/
structure Encounter where
  id : String
  expiration : Int
deriving DecidableEq

/-- Go struct `Message` (src/main.go lines 1436-1440): a Delivered Message
Record, keyed by (chat id, message id). -/
structure Message where
  chatID : Int
  messageID : Int
  encounterID : String
deriving DecidableEq

/-- Go struct `FilteredUsers` (src/main.go lines 1416-1421): the Subscriber
Index. The `all` component stands for the value collection of the
`map[int64]User`. -/
structure FilteredUsers where
  all : List User
  hundoIV : List User
  zeroIV : List User
  channels : List User
deriving DecidableEq

/-- Lookup in the `users.All` map: a missing key yields the Go zero value. -/
def lookupUser (all : List User) (uid : Int) : User :=
  (all.find? (fun u => u.id == uid)).getD defaultUser

/-- `strings.HasPrefix(strconv.FormatInt(user.ID, 10), "-100")`
(src/main.go line 1855): broadcast-channel identities. -/
def isChannelId (uid : Int) : Bool :=
  (toString uid).startsWith "-100"

/-- The `map[int64]User` built by `getUsersByFilters` from all subscriber
rows: later rows with the same id replace earlier ones. -/
def buildAllUsers (rows : List User) : List User :=
  rows.foldl (fun acc u => acc.filter (fun v => v.id != u.id) ++ [u]) []

/-- `getUsersByFilters` (src/main.go lines 1831-1860): rebuild of the
Subscriber Index; the three opt-in lists keep only subscribers with
`Notify` set and the corresponding membership condition. -/
def getUsersByFilters (rows : List User) : FilteredUsers :=
  let allUsers := buildAllUsers rows
  { all := allUsers
  , hundoIV := allUsers.filter (fun u => u.notify && u.hundoIV)
  , zeroIV := allUsers.filter (fun u => u.notify && u.zeroIV)
  , channels := allUsers.filter (fun u => u.notify && isChannelId u.id) }

/-- `getActiveSubscriptions` (src/main.go lines 1862-1876): the Subscription
Index keeps a subscription row exactly when the owning subscriber (looked up
in the freshest Subscriber Index, Go zero value if absent) has `Notify` set.
The grouping by `PokemonID` is exposed through `subscriptionsFor`. -/
def getActiveSubscriptions (fu : FilteredUsers) (subs : List Subscription) : List Subscription :=
  subs.filter (fun s => (lookupUser fu.all s.userID).notify)

/-- The per-entity-type bucket `activeSubscriptions[pokemonID]`. -/
def subscriptionsFor (active : List Subscription) (pid : Int) : List Subscription :=
  active.filter (fun s => s.pokemonID == pid)

/-- Effective threshold resolution (src/main.go lines 2862-2873): start from
the subscription override and fall back to the subscriber default when the
override is zero. -/
def effectiveThreshold (v d : Int) : Int :=
  if v == 0 then d else v

/-- The distance gate shared by the three dispatch paths
(src/main.go lines 2823-2828, 2836-2841, 2887-2893): skip the subscriber
exactly when both coordinates are nonzero, the threshold is positive and the
computed distance exceeds the threshold. -/
def distSkip (dist : ℚ → ℚ → ℚ → ℚ → ℚ) (lat lon : ℚ) (maxD : Int)
    (elat elon : ℚ) : Bool :=
  decide (lat ≠ 0 ∧ lon ≠ 0 ∧ 0 < maxD ∧ (maxD : ℚ) < dist lat lon elat elon)

/-- The top-quality broadcast path (src/main.go lines 2821-2832): when the
encounter IV is 100, every subscriber of the `HundoIV` list that is not
distance-skipped gets a dispatch attempt. -/
def hundoDispatchList (dist : ℚ → ℚ → ℚ → ℚ → ℚ) (fu : FilteredUsers)
    (e : EncounterData) : List User :=
  if e.iv == 100 then
    fu.hundoIV.filter (fun u => !distSkip dist u.latitude u.longitude u.maxDistance e.lat e.lon)
  else []

/-- The worst-quality broadcast path (src/main.go lines 2833-2843). -/
def zeroDispatchList (dist : ℚ → ℚ → ℚ → ℚ → ℚ) (fu : FilteredUsers)
    (e : EncounterData) : List User :=
  if e.iv == 0 then
    fu.zeroIV.filter (fun u => !distSkip dist u.latitude u.longitude u.maxDistance e.lat e.lon)
  else []

/-- The channel-broadcast decision (src/main.go lines 2845-2854): skip when
both defaults are zero, otherwise the mixed disjunctive/conjunctive test. -/
def channelSends (u : User) (e : EncounterData) : Bool :=
  if u.minIV == 0 && u.minLevel == 0 then false
  else decide ((u.minLevel = 0 ∧ (u.minIV : ℚ) ≤ e.iv)
    ∨ (u.minIV = 0 ∧ u.minLevel ≤ e.level)
    ∨ ((u.minIV : ℚ) ≤ e.iv ∧ u.minLevel ≤ e.level))

/-- The channel-broadcast path: dispatch attempts among `users.Channels`. -/
def channelDispatchList (fu : FilteredUsers) (e : EncounterData) : List User :=
  fu.channels.filter (fun u => channelSends u e)

/-- The subscription-path decision for one (subscriber, subscription) pair
(src/main.go lines 2858-2895): resolve effective thresholds, then reject on
IV, then on level, then on distance, otherwise dispatch. -/
def subPathSends (dist : ℚ → ℚ → ℚ → ℚ → ℚ) (all : List User)
    (sub : Subscription) (e : EncounterData) : Bool :=
  let user := lookupUser all sub.userID
  let effectiveMinIV := effectiveThreshold sub.minIV user.minIV
  let effectiveMinLevel := effectiveThreshold sub.minLevel user.minLevel
  let effectiveMaxDistance := effectiveThreshold sub.maxDistance user.maxDistance
  if 0 < effectiveMinIV ∧ e.iv < (effectiveMinIV : ℚ) then false
  else if 0 < effectiveMinLevel ∧ e.level < effectiveMinLevel then false
  else if distSkip dist user.latitude user.longitude effectiveMaxDistance e.lat e.lon then false
  else true

/-! ## Delivery Ledger and dispatch state

The Go globals `sentNotifications : map[string]map[int64]struct{}` and the
gorm tables `Encounter` and `Message` form the mutable state.  The nested
map is modelled as an association list from encounter id to the list of
already-notified subscriber ids. -/

/-- The in-memory dedup map `sentNotifications`. -/
abbrev Ledger : Type := List (String × List Int)

/-- Lookup of `sentNotifications[eid]`: `none` models both a missing key and
a `nil` inner map only through `ledgerHas`, which treats them alike. -/
def ledgerLookup : Ledger → String → Option (List Int)
  | [], _ => none
  | p :: rest, eid => if p.1 = eid then some p.2 else ledgerLookup rest eid

/-- The dedup test `_, exists := sentNotifications[encounter.ID][user.ID]`
(src/main.go line 1928). -/
def ledgerHas (L : Ledger) (eid : String) (uid : Int) : Bool :=
  match ledgerLookup L eid with
  | some s => s.contains uid
  | none => false

/-- `sentNotifications[encounter.ID][user.ID] = struct{}{}` together with the
allocation of the inner map when it is nil (src/main.go lines 1934-1937). -/
def ledgerInsert : Ledger → String → Int → Ledger
  | [], eid, uid => [(eid, [uid])]
  | p :: rest, eid, uid =>
      if p.1 = eid then (p.1, p.2 ++ [uid]) :: rest
      else p :: ledgerInsert rest eid uid

/-- `sentNotifications[encounter.ID] = nil` in the Cleanup Cycle
(src/main.go line 2922): the entry is emptied (a missing key is created
holding the empty set, matching the Go map assignment). -/
def ledgerSetNil : Ledger → String → Ledger
  | [], eid => [(eid, [])]
  | p :: rest, eid =>
      if p.1 = eid then (eid, []) :: rest
      else p :: ledgerSetNil rest eid

/-- Every inner subscriber set of the ledger is duplicate-free. -/
def LedgerOK (L : Ledger) : Prop :=
  ∀ p ∈ L, List.Nodup p.2

instance (L : Ledger) : Decidable (LedgerOK L) :=
  List.decidableBAll _ L

/-- The mutable engine state touched by dispatch and cleanup. -/
structure EngineState where
  ledger : Ledger
  encTable : List Encounter
  msgTable : List Message
deriving DecidableEq

/-- `dbConfig.Save(&Encounter{...})`: upsert by primary key `id`
(src/main.go line 1933). -/
def encUpsert (t : List Encounter) (row : Encounter) : List Encounter :=
  t.filter (fun r => r.id != row.id) ++ [row]

/-- Lookup of an `Encounter` row by primary key. -/
def encFind (t : List Encounter) (eid : String) : Option Encounter :=
  t.find? (fun r => r.id == eid)

/-- How many gateway artifacts `sendEncounterNotification` attempts for a
given subscriber: a sticker when not map-only and stickers are on, a
location pin when not map-only, and always one text message or venue
(src/main.go lines 1941-1960, 2035-2043). -/
def attemptArtifacts (u : User) : Nat :=
  (if !u.onlyMap && u.stickers then 1 else 0) + (if !u.onlyMap then 1 else 0) + 1

/-- The gateway sends of one dispatch: artifact `k` succeeds when
`sendOk k` is true, in which case a `Message` row with id `mid k` is
created (src/main.go lines 1880-1924). -/
def doSends (sendOk : Nat → Bool) (mid : Nat → Int) (u : User) (e : EncounterData)
    (t : List Message) : List Message :=
  (List.range (attemptArtifacts u)).foldl
    (fun acc k =>
      if sendOk k then acc ++ [{ chatID := u.id, messageID := mid k, encounterID := e.id }]
      else acc)
    t

/-- `sendEncounterNotification` (src/main.go lines 1926-2044): skip when the
(encounter id, subscriber id) pair is already in the ledger; otherwise
upsert the `Encounter` row with the expiry, insert the pair into the ledger,
and only then attempt the gateway sends.  The returned Bool reports whether
the dispatch was performed. -/
def sendEncounterNotification (sendOk : Nat → Bool) (mid : Nat → Int)
    (st : EngineState) (u : User) (e : EncounterData) : EngineState × Bool :=
  if ledgerHas st.ledger e.id u.id then (st, false)
  else
    ({ ledger := ledgerInsert st.ledger e.id u.id
     , encTable := encUpsert st.encTable { id := e.id, expiration := e.expireTimestamp }
     , msgTable := doSends sendOk mid u e st.msgTable }, true)

/-- A sequence of dispatch invocations (any number of ticks). -/
def runSends (sendOk : Nat → Bool) (mid : Nat → Int) :
    EngineState → List (User × EncounterData) → EngineState
  | st, [] => st
  | st, c :: rest =>
      runSends sendOk mid (sendEncounterNotification sendOk mid st c.1 c.2).1 rest

/-- How often the dispatch for the pair `(eid, uid)` is actually performed
along a sequence of invocations. -/
def dispatchCount (sendOk : Nat → Bool) (mid : Nat → Int) :
    EngineState → List (User × EncounterData) → String → Int → Nat
  | _, [], _, _ => 0
  | st, c :: rest, eid, uid =>
      let r := sendEncounterNotification sendOk mid st c.1 c.2
      (if r.2 && c.2.id == eid && c.1.id == uid then 1 else 0)
        + dispatchCount sendOk mid r.1 rest eid uid

/-! ## Cleanup Cycle -/

/-- Observable actions of `cleanupMessages`, in program order. -/
inductive CleanupEvent where
  | retract : Message → CleanupEvent
  | discardMsg : Message → CleanupEvent
  | discardEntry : String → CleanupEvent
deriving DecidableEq

/-- The inner message loop of `cleanupMessages` (src/main.go lines 2911-2920):
for each Delivered Message Record, attempt the gateway retraction only when
the owning subscriber has auto-cleanup enabled, then discard the record in
all cases. -/
def msgEvents (all : List User) (msgs : List Message) : List CleanupEvent :=
  msgs.flatMap (fun m =>
    (if (lookupUser all m.chatID).cleanup then [CleanupEvent.retract m] else [])
      ++ [CleanupEvent.discardMsg m])

/-- `dbConfig.Delete(&message)`: delete by primary key (chat id, message id). -/
def deleteMsgRow (t : List Message) (m : Message) : List Message :=
  t.filter (fun r => !(r.chatID == m.chatID && r.messageID == m.messageID))

/-- The body of `cleanupMessages` over the list of expired encounters
(src/main.go lines 2907-2923): per expired encounter, process its message
records, then delete the `Encounter` row and clear the dedup entry. -/
def cleanupLoop (all : List User) : List Encounter → EngineState → EngineState × List CleanupEvent
  | [], st => (st, [])
  | enc :: rest, st =>
      let msgs := st.msgTable.filter (fun m => m.encounterID == enc.id)
      let st' : EngineState :=
        { ledger := ledgerSetNil st.ledger enc.id
        , encTable := st.encTable.filter (fun r => r.id != enc.id)
        , msgTable := msgs.foldl deleteMsgRow st.msgTable }
      let r := cleanupLoop all rest st'
      (r.1, (msgEvents all msgs ++ [CleanupEvent.discardEntry enc.id]) ++ r.2)

/-- `cleanupMessages` (src/main.go lines 2900-2926): select the Delivery
Ledger entries whose expiry is strictly before `now` and process each. -/
def cleanupMessages (all : List User) (now : Int) (st : EngineState) :
    EngineState × List CleanupEvent :=
  cleanupLoop all (st.encTable.filter (fun r => decide (r.expiration < now))) st

/-! ## Geo-distance function

`haversine` (src/main.go lines 1673-1684) is float64 trigonometry in Go; it
is modelled exactly over the reals. -/

open Real in
/-- Go `math.Atan2(y, x)` over the reals (the branch for finite inputs). -/
noncomputable def atan2 (y x : ℝ) : ℝ :=
  if 0 < x then arctan (y / x)
  else if x < 0 ∧ 0 ≤ y then arctan (y / x) + π
  else if x < 0 then arctan (y / x) - π
  else if 0 < y then π / 2
  else if y < 0 then -(π / 2)
  else 0

open Real in
/-- `haversine` (src/main.go lines 1673-1684): great-circle distance in
meters with Earth radius 6371e3. -/
noncomputable def haversine (lat1 lon1 lat2 lon2 : ℝ) : ℝ :=
  let R : ℝ := 6371e3
  let phi1 := lat1 * (π / 180)
  let phi2 := lat2 * (π / 180)
  let deltaPhi := (lat2 - lat1) * (π / 180)
  let deltaLambda := (lon2 - lon1) * (π / 180)
  let a := sin (deltaPhi / 2) * sin (deltaPhi / 2)
    + cos phi1 * cos phi2 * sin (deltaLambda / 2) * sin (deltaLambda / 2)
  let c := 2 * atan2 (Real.sqrt a) (Real.sqrt (1 - a))
  R * c

/-! ## Definitions written from the spec wording (for refinement claims) -/

/-- Spec wording of §4.3 step 3 (channel-broadcast precedence): if only a
level default is set, match on level alone; if only a quality default is
set, match on quality alone; if both are set, require both. -/
def specChannelMatch (u : User) (e : EncounterData) : Prop :=
  (u.minIV = 0 ∧ u.minLevel ≠ 0 ∧ u.minLevel ≤ e.level)
  ∨ (u.minLevel = 0 ∧ u.minIV ≠ 0 ∧ (u.minIV : ℚ) ≤ e.iv)
  ∨ (u.minIV ≠ 0 ∧ u.minLevel ≠ 0 ∧ (u.minIV : ℚ) ≤ e.iv ∧ u.minLevel ≤ e.level)

instance (u : User) (e : EncounterData) : Decidable (specChannelMatch u e) := by
  unfold specChannelMatch
  infer_instance

/-- Spec wording of §4.3 step 4 (subscription matching): resolve
`effective = override if override ≠ 0 else default` for each dimension,
reject on quality, then level, then the distance rule, otherwise match. -/
def specSubscriptionMatch (dist : ℚ → ℚ → ℚ → ℚ → ℚ) (all : List User)
    (sub : Subscription) (e : EncounterData) : Prop :=
  let u := lookupUser all sub.userID
  let mIV := if sub.minIV ≠ 0 then sub.minIV else u.minIV
  let mLvl := if sub.minLevel ≠ 0 then sub.minLevel else u.minLevel
  let mD := if sub.maxDistance ≠ 0 then sub.maxDistance else u.maxDistance
  ¬ (e.iv < (mIV : ℚ))
  ∧ ¬ (e.level < mLvl)
  ∧ ¬ (u.latitude ≠ 0 ∧ u.longitude ≠ 0 ∧ 0 < mD
        ∧ (mD : ℚ) < dist u.latitude u.longitude e.lat e.lon)

instance (dist : ℚ → ℚ → ℚ → ℚ → ℚ) (all : List User) (sub : Subscription)
    (e : EncounterData) : Decidable (specSubscriptionMatch dist all sub e) := by
  unfold specSubscriptionMatch
  infer_instance

/-! ## Helper lemmas -/

theorem effectiveThreshold_eq_spec (v d : Int) :
    effectiveThreshold v d = if v ≠ 0 then v else d := by
  by_cases h : v = 0 <;> simp [effectiveThreshold, h]

theorem distSkip_false_of_unset (dist : ℚ → ℚ → ℚ → ℚ → ℚ)
    (lat lon : ℚ) (maxD : Int) (elat elon : ℚ)
    (h : lat = 0 ∨ lon = 0 ∨ maxD = 0) :
    distSkip dist lat lon maxD elat elon = false := by
  rcases h with h | h | h <;> simp [distSkip, h]

/-! ## Claim theorems -/

/-- Claim C2: the effective threshold used by the subscription-matching path
is the override `v` when `v ≠ 0` and the subscriber default `d` when
`v = 0`; in particular (0,50) resolves to 50, (30,50) to 30, and (0,0)
to 0. -/
theorem effective_threshold_resolution :
    (∀ v d : Int, v ≠ 0 → effectiveThreshold v d = v)
    ∧ (∀ d : Int, effectiveThreshold 0 d = d)
    ∧ effectiveThreshold 0 50 = 50
    ∧ effectiveThreshold 30 50 = 30
    ∧ effectiveThreshold 0 0 = 0 := by
  refine ⟨fun v d hv => ?_, fun d => rfl, rfl, rfl, rfl⟩
  simp [effectiveThreshold, hv]

/-- Witness for C2 at concrete inputs. -/
theorem effective_threshold_resolution_witness :
    (30 : Int) ≠ 0 ∧ effectiveThreshold 30 50 = 30 :=
  ⟨by decide, effective_threshold_resolution.1 30 50 (by decide)⟩

/-- Claim C8: after a rebuild, each opt-in list of the Subscriber Index
contains exactly the notification-enabled subscribers with the respective
membership condition, and every subscription kept by the Subscription Index
belongs to a subscriber with notifications enabled. -/
theorem index_restricted_to_enabled (rows : List User) (subs : List Subscription)
    (u : User) (s : Subscription) :
    (u ∈ (getUsersByFilters rows).hundoIV
      ↔ u ∈ (getUsersByFilters rows).all ∧ u.notify = true ∧ u.hundoIV = true)
    ∧ (u ∈ (getUsersByFilters rows).zeroIV
      ↔ u ∈ (getUsersByFilters rows).all ∧ u.notify = true ∧ u.zeroIV = true)
    ∧ (u ∈ (getUsersByFilters rows).channels
      ↔ u ∈ (getUsersByFilters rows).all ∧ u.notify = true ∧ isChannelId u.id = true)
    ∧ (s ∈ getActiveSubscriptions (getUsersByFilters rows) subs
      → (lookupUser (getUsersByFilters rows).all s.userID).notify = true) := by
  refine ⟨?_, ?_, ?_, ?_⟩
  · simp [getUsersByFilters, List.mem_filter, and_assoc]
  · simp [getUsersByFilters, List.mem_filter, and_assoc]
  · simp [getUsersByFilters, List.mem_filter, and_assoc]
  · intro hs
    have := (List.mem_filter.mp hs).2
    simpa using this

/-- Witness for C8 at a concrete index. -/
theorem index_restricted_to_enabled_witness :
    (lookupUser (getUsersByFilters
        [{ defaultUser with id := 4, notify := true }]).all 4).notify = true :=
  (index_restricted_to_enabled
      [{ defaultUser with id := 4, notify := true }]
      [{ userID := 4, pokemonID := 16, minIV := 0, minLevel := 0, maxDistance := 0 }]
      defaultUser
      { userID := 4, pokemonID := 16, minIV := 0, minLevel := 0, maxDistance := 0 }).2.2.2
    (by decide)

theorem channelSends_eq_spec (u : User) (e : EncounterData)
    (hiv : 0 ≤ e.iv) (hlvl : 0 ≤ e.level) :
    (channelSends u e = true ↔ specChannelMatch u e) := by
  by_cases h1 : u.minIV = 0 <;> by_cases h2 : u.minLevel = 0
  · simp [channelSends, specChannelMatch, h1, h2]
  · have hcast : ((u.minIV : ℚ)) ≤ e.iv := by rw [h1]; exact_mod_cast hiv
    simp [channelSends, specChannelMatch, h1, h2, hcast]
  · have hle : u.minLevel ≤ e.level := le_trans (le_of_eq h2) hlvl
    simp [channelSends, specChannelMatch, h1, h2, hle]
    tauto
  · simp [channelSends, specChannelMatch, h1, h2]

/-- Claim C4: a channel subscriber with both defaults unset is skipped;
otherwise it is dispatched exactly when the precedence rule holds: level
alone when only the level default is set, quality alone when only the
quality default is set, and both when both are set. -/
theorem channel_broadcast_matching (fu : FilteredUsers) (u : User)
    (e : EncounterData) (hiv : 0 ≤ e.iv) (hlvl : 0 ≤ e.level) :
    (u.minIV = 0 ∧ u.minLevel = 0 → channelSends u e = false)
    ∧ (u ∈ fu.channels →
        (u ∈ channelDispatchList fu e ↔ specChannelMatch u e)) := by
  constructor
  · rintro ⟨ha, hb⟩
    simp [channelSends, ha, hb]
  · intro hu
    rw [channelDispatchList, List.mem_filter]
    rw [channelSends_eq_spec u e hiv hlvl]
    simp [hu]

/-- Witness for C4: a channel subscriber with only a level default of 30 is
dispatched for a level-31 encounter of any quality. -/
theorem channel_broadcast_matching_witness :
    ({ defaultUser with id := -1005, notify := true, minLevel := 30 } : User)
      ∈ channelDispatchList
        { all := [{ defaultUser with id := -1005, notify := true, minLevel := 30 }]
        , hundoIV := [], zeroIV := []
        , channels := [{ defaultUser with id := -1005, notify := true, minLevel := 30 }] }
        { id := "enc1", lat := 0, lon := 0, expireTimestamp := 0
        , pokemonID := 16, iv := 55, level := 31 } :=
  ((channel_broadcast_matching
      { all := [{ defaultUser with id := -1005, notify := true, minLevel := 30 }]
      , hundoIV := [], zeroIV := []
      , channels := [{ defaultUser with id := -1005, notify := true, minLevel := 30 }] }
      { defaultUser with id := -1005, notify := true, minLevel := 30 }
      { id := "enc1", lat := 0, lon := 0, expireTimestamp := 0
      , pokemonID := 16, iv := 55, level := 31 }
      (by decide) (by decide)).2 (by decide)).mpr (by decide)

/-- Claim C3: the subscription path rejects a (subscriber, subscription)
pair exactly by the ordered rules of the spec: effective minimum quality
above the encounter quality, then effective minimum level above the
encounter level, then the distance rule for subscribers with coordinates
set; otherwise it dispatches. -/
theorem subscription_path_filtering (dist : ℚ → ℚ → ℚ → ℚ → ℚ)
    (all : List User) (sub : Subscription) (e : EncounterData)
    (hiv : 0 ≤ e.iv) (hlvl : 0 ≤ e.level) :
    (subPathSends dist all sub e = true ↔ specSubscriptionMatch dist all sub e) := by
  simp only [subPathSends, specSubscriptionMatch, distSkip]
  rw [← effectiveThreshold_eq_spec, ← effectiveThreshold_eq_spec, ← effectiveThreshold_eq_spec]
  split_ifs with h1 h2 h3
  · simp only [Bool.false_eq_true, false_iff, not_and]
    intro ha
    exact absurd h1.2 ha
  · simp only [Bool.false_eq_true, false_iff, not_and]
    intro _ hb
    exact absurd h2.2 hb
  · simp only [Bool.false_eq_true, false_iff]
    intro hc
    exact hc.2.2 (of_decide_eq_true h3)
  · simp only [true_iff]
    refine ⟨fun hc => h1 ⟨?_, hc⟩, fun hc => h2 ⟨?_, hc⟩, fun hc => h3 (decide_eq_true hc)⟩
    · exact_mod_cast lt_of_le_of_lt hiv hc
    · exact lt_of_le_of_lt hlvl hc

/-- Witness for C3: a subscription with quality override 90 matches a
quality-95 encounter for a subscriber with no coordinates and no default
thresholds. -/
theorem subscription_path_filtering_witness :
    subPathSends (fun _ _ _ _ => 0)
        [{ defaultUser with id := 4, notify := true }]
        { userID := 4, pokemonID := 16, minIV := 90, minLevel := 0, maxDistance := 0 }
        { id := "enc2", lat := 1, lon := 1, expireTimestamp := 0
        , pokemonID := 16, iv := 95, level := 10 } = true :=
  (subscription_path_filtering (fun _ _ _ _ => 0)
      [{ defaultUser with id := 4, notify := true }]
      { userID := 4, pokemonID := 16, minIV := 90, minLevel := 0, maxDistance := 0 }
      { id := "enc2", lat := 1, lon := 1, expireTimestamp := 0
      , pokemonID := 16, iv := 95, level := 10 }
      (by decide) (by decide)).mpr (by decide)

/-- Claim C5: when the quality score is exactly 100 (respectively 0),
every subscriber of the top-quality (worst-quality) list gets a dispatch
attempt unless both coordinates are nonzero, the distance threshold is
positive, and the computed distance exceeds it; a subscriber at (0,0) is
never distance-filtered. -/
theorem topworst_quality_broadcast (dist : ℚ → ℚ → ℚ → ℚ → ℚ)
    (fu : FilteredUsers) (e : EncounterData) (u : User) :
    (e.iv = 100 → (u ∈ hundoDispatchList dist fu e
      ↔ u ∈ fu.hundoIV ∧ ¬(u.latitude ≠ 0 ∧ u.longitude ≠ 0 ∧ 0 < u.maxDistance
          ∧ (u.maxDistance : ℚ) < dist u.latitude u.longitude e.lat e.lon)))
    ∧ (e.iv = 0 → (u ∈ zeroDispatchList dist fu e
      ↔ u ∈ fu.zeroIV ∧ ¬(u.latitude ≠ 0 ∧ u.longitude ≠ 0 ∧ 0 < u.maxDistance
          ∧ (u.maxDistance : ℚ) < dist u.latitude u.longitude e.lat e.lon)))
    ∧ (u.latitude = 0 ∧ u.longitude = 0 →
        (e.iv = 100 → (u ∈ hundoDispatchList dist fu e ↔ u ∈ fu.hundoIV))
        ∧ (e.iv = 0 → (u ∈ zeroDispatchList dist fu e ↔ u ∈ fu.zeroIV))) := by
  have hpred : ∀ v : User, ((!distSkip dist v.latitude v.longitude v.maxDistance e.lat e.lon) = true)
      ↔ ¬(v.latitude ≠ 0 ∧ v.longitude ≠ 0 ∧ 0 < v.maxDistance
          ∧ (v.maxDistance : ℚ) < dist v.latitude v.longitude e.lat e.lon) := by
    intro v
    simp [distSkip]
    constructor
    · rintro (h | h | h | h) h1 h2 h3
      · exact absurd h h1
      · exact absurd h h2
      · exact absurd h3 (not_lt.mpr h)
      · exact h
    · intro h
      by_cases c1 : v.latitude = 0
      · exact Or.inl c1
      by_cases c2 : v.longitude = 0
      · exact Or.inr (Or.inl c2)
      by_cases c3 : 0 < v.maxDistance
      · exact Or.inr (Or.inr (Or.inr (h c1 c2 c3)))
      · exact Or.inr (Or.inr (Or.inl (not_lt.mp c3)))
  refine ⟨fun h100 => ?_, fun h0 => ?_, fun hll => ⟨fun h100 => ?_, fun h0 => ?_⟩⟩
  · rw [hundoDispatchList, if_pos (by simp [h100]), List.mem_filter, hpred u]
  · rw [zeroDispatchList, if_pos (by simp [h0]), List.mem_filter, hpred u]
  · have hd := distSkip_false_of_unset dist u.latitude u.longitude u.maxDistance
      e.lat e.lon (Or.inl hll.1)
    simp [hundoDispatchList, h100, List.mem_filter, hd]
  · have hd := distSkip_false_of_unset dist u.latitude u.longitude u.maxDistance
      e.lat e.lon (Or.inl hll.1)
    simp [zeroDispatchList, h0, List.mem_filter, hd]

/-- Witness for C5: a subscriber at (0,0) with distance threshold 10 is
dispatched for a 100-quality encounter far away. -/
theorem topworst_quality_broadcast_witness :
    ({ defaultUser with id := 9, notify := true, hundoIV := true, maxDistance := 10 } : User)
      ∈ hundoDispatchList (fun _ _ _ _ => 99999)
        { all := [], zeroIV := [], channels := []
        , hundoIV := [{ defaultUser with id := 9, notify := true, hundoIV := true, maxDistance := 10 }] }
        { id := "enc3", lat := 50, lon := 50, expireTimestamp := 0
        , pokemonID := 16, iv := 100, level := 10 } :=
  (((topworst_quality_broadcast (fun _ _ _ _ => 99999)
      { all := [], zeroIV := [], channels := []
      , hundoIV := [{ defaultUser with id := 9, notify := true, hundoIV := true, maxDistance := 10 }] }
      { id := "enc3", lat := 50, lon := 50, expireTimestamp := 0
      , pokemonID := 16, iv := 100, level := 10 }
      { defaultUser with id := 9, notify := true, hundoIV := true, maxDistance := 10 }).2.2
    (by decide)).1 (by decide)).mpr (by decide)

/-- Claim C10: in every dispatch path the distance check is applied only
when latitude, longitude and the (effective) distance threshold are all
nonzero; a subscriber with a zero coordinate or zero threshold is never
rejected by distance. -/
theorem distance_gate_needs_all_set (dist dist2 : ℚ → ℚ → ℚ → ℚ → ℚ)
    (all : List User) (sub : Subscription) (e : EncounterData)
    (fu : FilteredUsers) (u : User) (lat lon elat elon : ℚ) (maxD : Int) :
    ((lat = 0 ∨ lon = 0 ∨ maxD = 0) → distSkip dist lat lon maxD elat elon = false)
    ∧ (((lookupUser all sub.userID).latitude = 0
        ∨ (lookupUser all sub.userID).longitude = 0
        ∨ effectiveThreshold sub.maxDistance (lookupUser all sub.userID).maxDistance = 0) →
          subPathSends dist all sub e = subPathSends dist2 all sub e)
    ∧ ((u.latitude = 0 ∨ u.longitude = 0 ∨ u.maxDistance = 0) →
        (e.iv = 100 → u ∈ fu.hundoIV → u ∈ hundoDispatchList dist fu e)
        ∧ (e.iv = 0 → u ∈ fu.zeroIV → u ∈ zeroDispatchList dist fu e)) := by
  refine ⟨distSkip_false_of_unset dist lat lon maxD elat elon, fun hs => ?_, fun hu => ⟨fun h100 hm => ?_, fun h0 hm => ?_⟩⟩
  · have hd1 := distSkip_false_of_unset dist (lookupUser all sub.userID).latitude
      (lookupUser all sub.userID).longitude
      (effectiveThreshold sub.maxDistance (lookupUser all sub.userID).maxDistance) e.lat e.lon hs
    have hd2 := distSkip_false_of_unset dist2 (lookupUser all sub.userID).latitude
      (lookupUser all sub.userID).longitude
      (effectiveThreshold sub.maxDistance (lookupUser all sub.userID).maxDistance) e.lat e.lon hs
    simp only [subPathSends, hd1, hd2]
  · have hd := distSkip_false_of_unset dist u.latitude u.longitude u.maxDistance e.lat e.lon hu
    simp [hundoDispatchList, h100, List.mem_filter, hd, hm]
  · have hd := distSkip_false_of_unset dist u.latitude u.longitude u.maxDistance e.lat e.lon hu
    simp [zeroDispatchList, h0, List.mem_filter, hd, hm]

/-- Witness for C10: with longitude 0 the subscription-path decision does
not depend on the distance function. -/
theorem distance_gate_needs_all_set_witness :
    distSkip (fun _ _ _ _ => 99999) 5 0 10 1 1 = false
    ∧ subPathSends (fun _ _ _ _ => 99999)
        [{ defaultUser with id := 4, notify := true, latitude := 5, maxDistance := 10 }]
        { userID := 4, pokemonID := 16, minIV := 0, minLevel := 0, maxDistance := 0 }
        { id := "enc4", lat := 9, lon := 9, expireTimestamp := 0
        , pokemonID := 16, iv := 50, level := 10 }
      = subPathSends (fun _ _ _ _ => 0)
        [{ defaultUser with id := 4, notify := true, latitude := 5, maxDistance := 10 }]
        { userID := 4, pokemonID := 16, minIV := 0, minLevel := 0, maxDistance := 0 }
        { id := "enc4", lat := 9, lon := 9, expireTimestamp := 0
        , pokemonID := 16, iv := 50, level := 10 } :=
  ⟨(distance_gate_needs_all_set (fun _ _ _ _ => 99999) (fun _ _ _ _ => 0)
      [] { userID := 0, pokemonID := 0, minIV := 0, minLevel := 0, maxDistance := 0 }
      { id := "x", lat := 0, lon := 0, expireTimestamp := 0, pokemonID := 0, iv := 0, level := 0 }
      { all := [], hundoIV := [], zeroIV := [], channels := [] }
      defaultUser 5 0 1 1 10).1 (by decide)
  , (distance_gate_needs_all_set (fun _ _ _ _ => 99999) (fun _ _ _ _ => 0)
      [{ defaultUser with id := 4, notify := true, latitude := 5, maxDistance := 10 }]
      { userID := 4, pokemonID := 16, minIV := 0, minLevel := 0, maxDistance := 0 }
      { id := "enc4", lat := 9, lon := 9, expireTimestamp := 0
      , pokemonID := 16, iv := 50, level := 10 }
      { all := [], hundoIV := [], zeroIV := [], channels := [] }
      defaultUser 0 0 0 0 0).2.1 (by decide)⟩

/-! ## Ledger lemmas for the at-most-once claims -/

theorem ledgerLookup_insert_self (L : Ledger) (eid : String) (uid : Int) :
    ledgerLookup (ledgerInsert L eid uid) eid
      = some ((ledgerLookup L eid).getD [] ++ [uid]) := by
  induction L with
  | nil => simp [ledgerInsert, ledgerLookup]
  | cons p rest ih =>
      by_cases h : p.1 = eid
      · simp [ledgerInsert, ledgerLookup, h]
      · simp [ledgerInsert, ledgerLookup, h, ih]

theorem ledgerLookup_insert_ne (L : Ledger) (eid eid2 : String) (uid : Int)
    (h : eid2 ≠ eid) :
    ledgerLookup (ledgerInsert L eid uid) eid2 = ledgerLookup L eid2 := by
  induction L with
  | nil =>
      rw [ledgerInsert, ledgerLookup, ledgerLookup]
      rw [if_neg (fun hc : eid = eid2 => h hc.symm)]
      rw [ledgerLookup]
  | cons p rest ih =>
      by_cases hp : p.1 = eid
      · rw [ledgerInsert, if_pos hp, ledgerLookup, ledgerLookup]
        have hne : ¬ (p.1 = eid2) := fun hc => h (hc ▸ hp)
        rw [if_neg hne, if_neg hne]
      · rw [ledgerInsert, if_neg hp, ledgerLookup, ledgerLookup]
        by_cases hp2 : p.1 = eid2
        · rw [if_pos hp2, if_pos hp2]
        · rw [if_neg hp2, if_neg hp2]
          exact ih

theorem ledgerHas_insert_self (L : Ledger) (eid : String) (uid : Int) :
    ledgerHas (ledgerInsert L eid uid) eid uid = true := by
  rw [ledgerHas, ledgerLookup_insert_self]
  simp

theorem ledgerHas_insert_mono (L : Ledger) (eid eid2 : String) (uid uid2 : Int)
    (h : ledgerHas L eid uid = true) :
    ledgerHas (ledgerInsert L eid2 uid2) eid uid = true := by
  by_cases heq : eid = eid2
  · subst heq
    rw [ledgerHas, ledgerLookup_insert_self]
    rw [ledgerHas] at h
    rcases hl : ledgerLookup L eid with _ | s
    · rw [hl] at h
      exact absurd h (by simp)
    · rw [hl] at h
      have hmem : uid ∈ s := by simpa using h
      simp [hl, List.mem_append, hmem]
  · rw [ledgerHas, ledgerLookup_insert_ne L eid2 eid uid2 heq]
    exact h

theorem LedgerOK_insert (L : Ledger) (eid : String) (uid : Int)
    (hok : LedgerOK L) (habs : ledgerHas L eid uid = false) :
    LedgerOK (ledgerInsert L eid uid) := by
  induction L with
  | nil =>
      intro p hp
      simp only [ledgerInsert, List.mem_singleton] at hp
      subst hp
      simp
  | cons q rest ih =>
      by_cases hq : q.1 = eid
      · intro p hp
        simp only [ledgerInsert, hq, if_pos] at hp
        rcases List.mem_cons.mp hp with hp | hp
        · subst hp
          have hnodup : q.2.Nodup := hok q (List.mem_cons_self q rest)
          have hnotmem : uid ∉ q.2 := by
            rw [ledgerHas, ledgerLookup, if_pos hq] at habs
            simpa using habs
          simp [List.nodup_append, hnodup, hnotmem]
        · exact hok p (List.mem_cons_of_mem q hp)
      · intro p hp
        simp only [ledgerInsert, hq, if_neg, not_false_iff] at hp
        rcases List.mem_cons.mp hp with hp | hp
        · subst hp
          exact hok p (List.mem_cons_self p rest)
        · have hok2 : LedgerOK rest := fun r hr => hok r (List.mem_cons_of_mem q hr)
          have habs2 : ledgerHas rest eid uid = false := by
            rw [ledgerHas, ledgerLookup, if_neg hq] at habs
            exact habs
          exact ih hok2 habs2 p hp

theorem send_ledger_indep (sendOk sendOk2 : Nat → Bool) (mid mid2 : Nat → Int)
    (st : EngineState) (u : User) (e : EncounterData) :
    (sendEncounterNotification sendOk mid st u e).1.ledger
      = (sendEncounterNotification sendOk2 mid2 st u e).1.ledger := by
  rw [sendEncounterNotification, sendEncounterNotification]
  by_cases h : ledgerHas st.ledger e.id u.id = true
  · simp [h]
  · simp [h]

theorem send_has_after (sendOk : Nat → Bool) (mid : Nat → Int)
    (st : EngineState) (u : User) (e : EncounterData) :
    ledgerHas (sendEncounterNotification sendOk mid st u e).1.ledger e.id u.id = true := by
  rw [sendEncounterNotification]
  by_cases h : ledgerHas st.ledger e.id u.id = true
  · simp [h]
  · simp only [h, Bool.false_eq_true, if_neg, not_false_iff]
    exact ledgerHas_insert_self st.ledger e.id u.id

theorem send_has_mono (sendOk : Nat → Bool) (mid : Nat → Int)
    (st : EngineState) (u : User) (e : EncounterData) (eid : String) (uid : Int)
    (h : ledgerHas st.ledger eid uid = true) :
    ledgerHas (sendEncounterNotification sendOk mid st u e).1.ledger eid uid = true := by
  rw [sendEncounterNotification]
  by_cases hc : ledgerHas st.ledger e.id u.id = true
  · simpa [hc]
  · simp only [hc, Bool.false_eq_true, if_neg, not_false_iff]
    exact ledgerHas_insert_mono st.ledger eid e.id uid u.id h

theorem send_skips_of_has (sendOk : Nat → Bool) (mid : Nat → Int)
    (st : EngineState) (u : User) (e : EncounterData)
    (h : ledgerHas st.ledger e.id u.id = true) :
    (sendEncounterNotification sendOk mid st u e).2 = false := by
  rw [sendEncounterNotification]
  simp [h]

theorem dispatchCount_zero_of_has (sendOk : Nat → Bool) (mid : Nat → Int)
    (calls : List (User × EncounterData)) :
    ∀ (st : EngineState) (eid : String) (uid : Int),
      ledgerHas st.ledger eid uid = true →
      dispatchCount sendOk mid st calls eid uid = 0 := by
  induction calls with
  | nil =>
      intro st eid uid _
      rfl
  | cons c rest ih =>
      intro st eid uid h
      rw [dispatchCount]
      have hrec := ih (sendEncounterNotification sendOk mid st c.1 c.2).1 eid uid
        (send_has_mono sendOk mid st c.1 c.2 eid uid h)
      rw [hrec]
      by_cases hid : c.2.id = eid ∧ c.1.id = uid
      · have hskip : (sendEncounterNotification sendOk mid st c.1 c.2).2 = false := by
          apply send_skips_of_has
          rw [hid.1, hid.2]
          exact h
        simp [hskip]
      · rcases not_and_or.mp hid with hid | hid <;> simp [hid]

theorem dispatchCount_le_one (sendOk : Nat → Bool) (mid : Nat → Int)
    (calls : List (User × EncounterData)) :
    ∀ (st : EngineState) (eid : String) (uid : Int),
      dispatchCount sendOk mid st calls eid uid ≤ 1 := by
  induction calls with
  | nil =>
      intro st eid uid
      exact Nat.zero_le 1
  | cons c rest ih =>
      intro st eid uid
      rw [dispatchCount]
      by_cases hterm : ((sendEncounterNotification sendOk mid st c.1 c.2).2
          && c.2.id == eid && c.1.id == uid) = true
      · have h2 : ledgerHas (sendEncounterNotification sendOk mid st c.1 c.2).1.ledger eid uid = true := by
          have hids : c.2.id = eid ∧ c.1.id = uid := by
            simp only [Bool.and_eq_true, beq_iff_eq] at hterm
            exact ⟨hterm.1.2, hterm.2⟩
          rw [← hids.1, ← hids.2]
          exact send_has_after sendOk mid st c.1 c.2
        rw [dispatchCount_zero_of_has sendOk mid rest _ eid uid h2]
        simp [hterm]
      · simp only [Bool.not_eq_true] at hterm
        rw [hterm]
        simpa using ih (sendEncounterNotification sendOk mid st c.1 c.2).1 eid uid

theorem send_LedgerOK (sendOk : Nat → Bool) (mid : Nat → Int)
    (st : EngineState) (u : User) (e : EncounterData)
    (hok : LedgerOK st.ledger) :
    LedgerOK (sendEncounterNotification sendOk mid st u e).1.ledger := by
  rw [sendEncounterNotification]
  by_cases h : ledgerHas st.ledger e.id u.id = true
  · simpa [h]
  · simp only [h, Bool.false_eq_true, if_neg, not_false_iff]
    exact LedgerOK_insert st.ledger e.id u.id hok (by simpa using h)

theorem runSends_LedgerOK (sendOk : Nat → Bool) (mid : Nat → Int)
    (calls : List (User × EncounterData)) :
    ∀ (st : EngineState), LedgerOK st.ledger →
      LedgerOK (runSends sendOk mid st calls).ledger := by
  induction calls with
  | nil =>
      intro st hok
      exact hok
  | cons c rest ih =>
      intro st hok
      rw [runSends]
      exact ih _ (send_LedgerOK sendOk mid st c.1 c.2 hok)

/-- Claim C1: a pair (encounter id, subscriber id) is dispatched at most
once along any sequence of dispatch invocations while its ledger entry
survives; an invocation for a pair already present in the ledger is
skipped; and every ledger entry stays duplicate-free. -/
theorem at_most_once_delivery (sendOk : Nat → Bool) (mid : Nat → Int)
    (st : EngineState) (calls : List (User × EncounterData))
    (eid : String) (uid : Int) (u : User) (e : EncounterData) :
    dispatchCount sendOk mid st calls eid uid ≤ 1
    ∧ (ledgerHas st.ledger e.id u.id = true →
        (sendEncounterNotification sendOk mid st u e).2 = false)
    ∧ (LedgerOK st.ledger → LedgerOK (runSends sendOk mid st calls).ledger) :=
  ⟨dispatchCount_le_one sendOk mid calls st eid uid
  , send_skips_of_has sendOk mid st u e
  , runSends_LedgerOK sendOk mid calls st⟩

/-- Witness for C1: dispatching the same pair twice counts one dispatch; a
pair already recorded is skipped; ledger entries stay duplicate-free. -/
theorem at_most_once_delivery_witness :
    dispatchCount (fun _ => true) (fun _ => 0)
        { ledger := [], encTable := [], msgTable := [] }
        [(({ defaultUser with id := 7, notify := true } : User),
          ({ id := "E", lat := 0, lon := 0, expireTimestamp := 9
            , pokemonID := 1, iv := 100, level := 5 } : EncounterData)),
         (({ defaultUser with id := 7, notify := true } : User),
          ({ id := "E", lat := 0, lon := 0, expireTimestamp := 9
            , pokemonID := 1, iv := 100, level := 5 } : EncounterData))]
        "E" 7 ≤ 1
    ∧ (sendEncounterNotification (fun _ => true) (fun _ => 0)
        { ledger := [("E", [7])], encTable := [], msgTable := [] }
        { defaultUser with id := 7, notify := true }
        { id := "E", lat := 0, lon := 0, expireTimestamp := 9
        , pokemonID := 1, iv := 100, level := 5 }).2 = false :=
  ⟨(at_most_once_delivery (fun _ => true) (fun _ => 0)
      { ledger := [], encTable := [], msgTable := [] }
      [(({ defaultUser with id := 7, notify := true } : User),
        ({ id := "E", lat := 0, lon := 0, expireTimestamp := 9
          , pokemonID := 1, iv := 100, level := 5 } : EncounterData)),
       (({ defaultUser with id := 7, notify := true } : User),
        ({ id := "E", lat := 0, lon := 0, expireTimestamp := 9
          , pokemonID := 1, iv := 100, level := 5 } : EncounterData))]
      "E" 7 defaultUser
      { id := "x", lat := 0, lon := 0, expireTimestamp := 0, pokemonID := 0, iv := 0, level := 0 }).1
  , (at_most_once_delivery (fun _ => true) (fun _ => 0)
      { ledger := [("E", [7])], encTable := [], msgTable := [] }
      [] "E" 7
      { defaultUser with id := 7, notify := true }
      { id := "E", lat := 0, lon := 0, expireTimestamp := 9
      , pokemonID := 1, iv := 100, level := 5 }).2.1 (by decide)⟩

theorem encFind_upsert (t : List Encounter) (row : Encounter) :
    encFind (encUpsert t row) row.id = some row := by
  rw [encFind, encUpsert, List.find?_append]
  have h1 : (t.filter (fun r => r.id != row.id)).find? (fun r => r.id == row.id) = none := by
    rw [List.find?_eq_none]
    intro x hx
    have := (List.mem_filter.mp hx).2
    simpa using this
  rw [h1]
  simp

/-- Claim C9: the ledger update of a dispatch happens before and
independently of the gateway sends: the resulting ledger is the same for
every send outcome, the pair is recorded even if all sends fail, a repeat
invocation is skipped, and on a fresh dispatch the ledger gains exactly the
pair while the encounter expiry row is stored. -/
theorem no_retry_after_failed_send (sendOk sendOk2 : Nat → Bool)
    (mid mid2 : Nat → Int) (st : EngineState) (u : User) (e : EncounterData) :
    (sendEncounterNotification sendOk mid st u e).1.ledger
      = (sendEncounterNotification sendOk2 mid2 st u e).1.ledger
    ∧ ledgerHas (sendEncounterNotification sendOk mid st u e).1.ledger e.id u.id = true
    ∧ (sendEncounterNotification sendOk2 mid2
        (sendEncounterNotification sendOk mid st u e).1 u e).2 = false
    ∧ (ledgerHas st.ledger e.id u.id = false →
        (sendEncounterNotification sendOk mid st u e).1.ledger
            = ledgerInsert st.ledger e.id u.id
        ∧ encFind (sendEncounterNotification sendOk mid st u e).1.encTable e.id
            = some { id := e.id, expiration := e.expireTimestamp }) := by
  refine ⟨send_ledger_indep sendOk sendOk2 mid mid2 st u e
  , send_has_after sendOk mid st u e
  , send_skips_of_has sendOk2 mid2 _ u e (send_has_after sendOk mid st u e)
  , fun habs => ?_⟩
  rw [sendEncounterNotification]
  rw [if_neg (by rw [habs]; exact Bool.false_ne_true)]
  exact ⟨rfl, encFind_upsert st.encTable { id := e.id, expiration := e.expireTimestamp }⟩

/-- Witness for C9 at a concrete fresh dispatch whose sends all fail. -/
theorem no_retry_after_failed_send_witness :
    (sendEncounterNotification (fun _ => false) (fun _ => 0)
        { ledger := [], encTable := [], msgTable := [] }
        { defaultUser with id := 7, notify := true }
        { id := "E", lat := 0, lon := 0, expireTimestamp := 9
        , pokemonID := 1, iv := 100, level := 5 }).1.ledger
      = ledgerInsert [] "E" 7 :=
  ((no_retry_after_failed_send (fun _ => false) (fun _ => true) (fun _ => 0) (fun _ => 1)
      { ledger := [], encTable := [], msgTable := [] }
      { defaultUser with id := 7, notify := true }
      { id := "E", lat := 0, lon := 0, expireTimestamp := 9
      , pokemonID := 1, iv := 100, level := 5 }).2.2.2 (by decide)).1

/-! ## Cleanup Cycle lemmas -/

theorem foldl_deleteMsgRow (ms : List Message) :
    ∀ t : List Message, ms.foldl deleteMsgRow t
      = t.filter (fun r =>
          !(ms.any (fun m => r.chatID == m.chatID && r.messageID == m.messageID))) := by
  induction ms with
  | nil =>
      intro t
      simp
  | cons m ms ih =>
      intro t
      rw [List.foldl_cons, ih (deleteMsgRow t m), deleteMsgRow, List.filter_filter]
      refine List.filter_congr ?_
      intro r _
      simp only [List.any_cons, Bool.not_or]
      rw [Bool.and_comm]

theorem pkNodup_filter (t : List Message) (p : Message → Bool)
    (h : (t.map (fun m => (m.chatID, m.messageID))).Nodup) :
    ((t.filter p).map (fun m => (m.chatID, m.messageID))).Nodup :=
  h.sublist ((t.filter_sublist).map (fun m => (m.chatID, m.messageID)))

theorem deleted_eq_filter (t : List Message) (x : String)
    (h : (t.map (fun m => (m.chatID, m.messageID))).Nodup) :
    (t.filter (fun m => m.encounterID == x)).foldl deleteMsgRow t
      = t.filter (fun m => m.encounterID != x) := by
  rw [foldl_deleteMsgRow]
  refine List.filter_congr ?_
  intro r hr
  by_cases hx : r.encounterID = x
  · have hrf : r ∈ t.filter (fun m => m.encounterID == x) :=
      List.mem_filter.mpr ⟨hr, by simp [hx]⟩
    have hany : (t.filter (fun m => m.encounterID == x)).any
        (fun m => r.chatID == m.chatID && r.messageID == m.messageID) = true :=
      List.any_eq_true.mpr ⟨r, hrf, by simp⟩
    simp [hany, hx]
  · have hany : (t.filter (fun m => m.encounterID == x)).any
        (fun m => r.chatID == m.chatID && r.messageID == m.messageID) = false := by
      rw [Bool.eq_false_iff]
      intro hc
      rcases List.any_eq_true.mp hc with ⟨m, hm, hpk⟩
      have hmt := List.mem_filter.mp hm
      simp only [Bool.and_eq_true, beq_iff_eq] at hpk
      have hmr : m = r :=
        List.inj_on_of_nodup_map h hmt.1 hr (by rw [hpk.1, hpk.2])
      have : r.encounterID = x := by
        rw [← hmr]
        exact beq_iff_eq.mp hmt.2
      exact hx this
    simp [hany, hx]

theorem cleanupLoop_encTable (all : List User) (es : List Encounter) :
    ∀ st : EngineState, (cleanupLoop all es st).1.encTable
      = st.encTable.filter (fun r => !((es.map Encounter.id).contains r.id)) := by
  induction es with
  | nil =>
      intro st
      simp [cleanupLoop]
  | cons enc rest ih =>
      intro st
      rw [cleanupLoop]
      rw [ih]
      simp only [List.filter_filter]
      refine List.filter_congr ?_
      intro r _
      simp only [List.map_cons, List.contains_cons, Bool.not_or]
      rw [Bool.and_comm]
      simp [bne]

theorem cleanupLoop_msgTable (all : List User) (es : List Encounter) :
    ∀ st : EngineState,
      (st.msgTable.map (fun m => (m.chatID, m.messageID))).Nodup →
      (cleanupLoop all es st).1.msgTable
        = st.msgTable.filter (fun m => !((es.map Encounter.id).contains m.encounterID)) := by
  induction es with
  | nil =>
      intro st _
      simp [cleanupLoop]
  | cons enc rest ih =>
      intro st hnd
      rw [cleanupLoop]
      have hdel : (st.msgTable.filter (fun m => m.encounterID == enc.id)).foldl
          deleteMsgRow st.msgTable
          = st.msgTable.filter (fun m => m.encounterID != enc.id) :=
        deleted_eq_filter st.msgTable enc.id hnd
      rw [ih _ (by rw [hdel]; exact pkNodup_filter _ _ hnd)]
      simp only [hdel, List.filter_filter]
      refine List.filter_congr ?_
      intro r _
      simp only [List.map_cons, List.contains_cons, Bool.not_or]
      rw [Bool.and_comm]
      simp [bne]

theorem retract_mem_msgEvents (all : List User) (msgs : List Message) (m : Message) :
    (CleanupEvent.retract m ∈ msgEvents all msgs
      ↔ m ∈ msgs ∧ (lookupUser all m.chatID).cleanup = true) := by
  rw [msgEvents, List.mem_flatMap]
  constructor
  · rintro ⟨a, ha, hmem⟩
    rcases List.mem_append.mp hmem with hmem | hmem
    · by_cases hc : (lookupUser all a.chatID).cleanup
      · rw [if_pos hc] at hmem
        have : m = a := by
          cases List.mem_singleton.mp hmem
          rfl
        subst this
        exact ⟨ha, hc⟩
      · rw [if_neg hc] at hmem
        exact absurd hmem (List.not_mem_nil _)
    · exact absurd (List.mem_singleton.mp hmem) (by intro h; cases h)
  · rintro ⟨hm, hc⟩
    exact ⟨m, hm, List.mem_append.mpr (Or.inl (by rw [hc]; simp))⟩

theorem discardMsg_mem_msgEvents (all : List User) (msgs : List Message) (m : Message) :
    (CleanupEvent.discardMsg m ∈ msgEvents all msgs ↔ m ∈ msgs) := by
  rw [msgEvents, List.mem_flatMap]
  constructor
  · rintro ⟨a, ha, hmem⟩
    rcases List.mem_append.mp hmem with hmem | hmem
    · by_cases hc : (lookupUser all a.chatID).cleanup
      · rw [if_pos hc] at hmem
        exact absurd (List.mem_singleton.mp hmem) (by intro h; cases h)
      · rw [if_neg hc] at hmem
        exact absurd hmem (List.not_mem_nil _)
    · cases List.mem_singleton.mp hmem
      exact ha
  · intro hm
    exact ⟨m, hm, List.mem_append.mpr (Or.inr (by simp))⟩

theorem cleanup_retract_iff (all : List User) (es : List Encounter) :
    ∀ (st : EngineState) (m : Message),
      (st.msgTable.map (fun x => (x.chatID, x.messageID))).Nodup →
      (CleanupEvent.retract m ∈ (cleanupLoop all es st).2
        ↔ m ∈ st.msgTable ∧ (es.map Encounter.id).contains m.encounterID = true
          ∧ (lookupUser all m.chatID).cleanup = true) := by
  induction es with
  | nil =>
      intro st m _
      simp [cleanupLoop]
  | cons enc rest ih =>
      intro st m hnd
      have hdel := deleted_eq_filter st.msgTable enc.id hnd
      have hnd2 := pkNodup_filter st.msgTable (fun x => x.encounterID != enc.id) hnd
      simp only [cleanupLoop, hdel]
      rw [List.mem_append, List.mem_append, retract_mem_msgEvents]
      rw [ih { ledger := ledgerSetNil st.ledger enc.id
             , encTable := st.encTable.filter (fun r => r.id != enc.id)
             , msgTable := st.msgTable.filter (fun x => x.encounterID != enc.id) } m hnd2]
      simp only [List.mem_singleton, List.mem_filter, List.map_cons, List.contains_cons,
        Bool.or_eq_true, bne_iff_ne, beq_iff_eq]
      constructor
      · rintro ((⟨⟨hm, hid⟩, hf⟩ | hbad) | ⟨⟨hm, hne⟩, hc, hf⟩)
        · exact ⟨hm, Or.inl hid, hf⟩
        · cases hbad
        · exact ⟨hm, Or.inr hc, hf⟩
      · rintro ⟨hm, hor, hf⟩
        by_cases hid : m.encounterID = enc.id
        · exact Or.inl (Or.inl ⟨⟨hm, hid⟩, hf⟩)
        · rcases hor with hor | hor
          · exact absurd hor hid
          · exact Or.inr ⟨⟨hm, hid⟩, hor, hf⟩

theorem cleanup_discardMsg_iff (all : List User) (es : List Encounter) :
    ∀ (st : EngineState) (m : Message),
      (st.msgTable.map (fun x => (x.chatID, x.messageID))).Nodup →
      (CleanupEvent.discardMsg m ∈ (cleanupLoop all es st).2
        ↔ m ∈ st.msgTable ∧ (es.map Encounter.id).contains m.encounterID = true) := by
  induction es with
  | nil =>
      intro st m _
      simp [cleanupLoop]
  | cons enc rest ih =>
      intro st m hnd
      have hdel := deleted_eq_filter st.msgTable enc.id hnd
      have hnd2 := pkNodup_filter st.msgTable (fun x => x.encounterID != enc.id) hnd
      simp only [cleanupLoop, hdel]
      rw [List.mem_append, List.mem_append, discardMsg_mem_msgEvents]
      rw [ih { ledger := ledgerSetNil st.ledger enc.id
             , encTable := st.encTable.filter (fun r => r.id != enc.id)
             , msgTable := st.msgTable.filter (fun x => x.encounterID != enc.id) } m hnd2]
      simp only [List.mem_singleton, List.mem_filter, List.map_cons, List.contains_cons,
        Bool.or_eq_true, bne_iff_ne, beq_iff_eq]
      constructor
      · rintro ((⟨hm, hid⟩ | hbad) | ⟨⟨hm, hne⟩, hc⟩)
        · exact ⟨hm, Or.inl hid⟩
        · cases hbad
        · exact ⟨hm, Or.inr hc⟩
      · rintro ⟨hm, hor⟩
        by_cases hid : m.encounterID = enc.id
        · exact Or.inl (Or.inl ⟨hm, hid⟩)
        · rcases hor with hor | hor
          · exact absurd hor hid
          · exact Or.inr ⟨⟨hm, hid⟩, hor⟩

theorem cleanup_order (all : List User) (es : List Encounter) :
    ∀ (st : EngineState) (m : Message),
      CleanupEvent.discardMsg m ∈ (cleanupLoop all es st).2 →
      ∃ pre post, (cleanupLoop all es st).2
          = pre ++ CleanupEvent.discardEntry m.encounterID :: post
        ∧ CleanupEvent.discardMsg m ∈ pre := by
  induction es with
  | nil =>
      intro st m h
      exact absurd h (by simp [cleanupLoop])
  | cons enc rest ih =>
      intro st m h
      simp only [cleanupLoop] at h ⊢
      rcases List.mem_append.mp h with h1 | h2
      · rcases List.mem_append.mp h1 with ha | hb
        · have hm := (discardMsg_mem_msgEvents all _ m).mp ha
          have hid : m.encounterID = enc.id := beq_iff_eq.mp (List.mem_filter.mp hm).2
          refine ⟨msgEvents all (st.msgTable.filter (fun x => x.encounterID == enc.id)),
            (cleanupLoop all rest
              { ledger := ledgerSetNil st.ledger enc.id
              , encTable := st.encTable.filter (fun r => r.id != enc.id)
              , msgTable := (st.msgTable.filter (fun x => x.encounterID == enc.id)).foldl
                  deleteMsgRow st.msgTable }).2, ?_, ha⟩
          rw [hid]
          simp [List.append_assoc]
        · have := List.mem_singleton.mp hb
          simp at this
      · rcases ih _ m h2 with ⟨pre, post, heq, hmem⟩
        refine ⟨(msgEvents all (st.msgTable.filter (fun x => x.encounterID == enc.id))
              ++ [CleanupEvent.discardEntry enc.id]) ++ pre, post, ?_, ?_⟩
        · rw [heq]
          simp [List.append_assoc]
        · exact List.mem_append.mpr (Or.inr hmem)

/-- Claim C7: a cleanup pass at time `now` keeps exactly the encounters with
expiry at or after `now`, removes the Delivered Message Records of the
expired encounters, attempts a gateway retraction exactly for those records
whose owner has auto-cleanup enabled, and discards every message record
before the ledger entry of its encounter. -/
theorem cleanup_discards_only_expired (all : List User) (now : Int)
    (st : EngineState) (m : Message)
    (hEnc : (st.encTable.map Encounter.id).Nodup)
    (hMsg : (st.msgTable.map (fun x => (x.chatID, x.messageID))).Nodup) :
    (cleanupMessages all now st).1.encTable
        = st.encTable.filter (fun r => decide (now ≤ r.expiration))
    ∧ (cleanupMessages all now st).1.msgTable
        = st.msgTable.filter (fun x =>
            !(((st.encTable.filter (fun r => decide (r.expiration < now))).map
                Encounter.id).contains x.encounterID))
    ∧ (CleanupEvent.retract m ∈ (cleanupMessages all now st).2
        ↔ m ∈ st.msgTable
          ∧ (∃ enc ∈ st.encTable, enc.id = m.encounterID ∧ enc.expiration < now)
          ∧ (lookupUser all m.chatID).cleanup = true)
    ∧ (CleanupEvent.discardMsg m ∈ (cleanupMessages all now st).2
        ↔ m ∈ st.msgTable
          ∧ (∃ enc ∈ st.encTable, enc.id = m.encounterID ∧ enc.expiration < now))
    ∧ (CleanupEvent.discardMsg m ∈ (cleanupMessages all now st).2
        → ∃ pre post, (cleanupMessages all now st).2
              = pre ++ CleanupEvent.discardEntry m.encounterID :: post
          ∧ CleanupEvent.discardMsg m ∈ pre) := by
  have hmid : ∀ x : String,
      (((st.encTable.filter (fun r => decide (r.expiration < now))).map
          Encounter.id).contains x = true
        ↔ ∃ enc ∈ st.encTable, enc.id = x ∧ enc.expiration < now) := by
    intro x
    simp only [List.contains_iff_exists_mem_beq]
    constructor
    · rintro ⟨y, hy, hbeq⟩
      rcases List.mem_map.mp hy with ⟨a, ha, hax⟩
      have hat := List.mem_filter.mp ha
      refine ⟨a, hat.1, ?_, by simpa using hat.2⟩
      rw [hax]
      exact (beq_iff_eq.mp hbeq).symm
    · rintro ⟨enc, henc, hid, hexp⟩
      refine ⟨enc.id, List.mem_map.mpr ⟨enc, List.mem_filter.mpr ⟨henc, by simp [hexp]⟩, rfl⟩, ?_⟩
      simp [hid]
  refine ⟨?_, ?_, ?_, ?_, ?_⟩
  · rw [cleanupMessages, cleanupLoop_encTable]
    refine List.filter_congr ?_
    intro r hr
    by_cases h : r.expiration < now
    · have hmem : r.id ∈ ((st.encTable.filter
          (fun x => decide (x.expiration < now))).map Encounter.id) :=
        List.mem_map.mpr ⟨r, List.mem_filter.mpr ⟨hr, by simp [h]⟩, rfl⟩
      have hc : ¬ (now ≤ r.expiration) := not_le.mpr h
      simp [hmem, hc]
    · have hnc : r.id ∉ ((st.encTable.filter
          (fun x => decide (x.expiration < now))).map Encounter.id) := by
        intro hcmem
        rcases List.mem_map.mp hcmem with ⟨x, hx, hxid⟩
        have hxt := List.mem_filter.mp hx
        have hxr : x = r := List.inj_on_of_nodup_map hEnc hxt.1 hr hxid
        exact h (hxr ▸ (by simpa using hxt.2))
      simp [hnc, not_lt.mp h]
  · rw [cleanupMessages, cleanupLoop_msgTable all _ st hMsg]
  · rw [cleanupMessages, cleanup_retract_iff all _ st m hMsg, hmid m.encounterID]
  · rw [cleanupMessages, cleanup_discardMsg_iff all _ st m hMsg, hmid m.encounterID]
  · rw [cleanupMessages]
    exact cleanup_order all _ st m

/-- Witness for C7: at time 50 the encounter expiring at 150 survives, and
the message of the encounter expired at 49 is retracted for its
cleanup-enabled owner. -/
theorem cleanup_discards_only_expired_witness :
    (cleanupMessages [{ defaultUser with id := 1, notify := true, cleanup := true }] 50
        { ledger := [("B", [1])]
        , encTable := [{ id := "A", expiration := 150 }, { id := "B", expiration := 49 }]
        , msgTable := [{ chatID := 1, messageID := 10, encounterID := "B" }] }).1.encTable
      = [{ id := "A", expiration := 150 }]
    ∧ CleanupEvent.retract { chatID := 1, messageID := 10, encounterID := "B" }
        ∈ (cleanupMessages [{ defaultUser with id := 1, notify := true, cleanup := true }] 50
            { ledger := [("B", [1])]
            , encTable := [{ id := "A", expiration := 150 }, { id := "B", expiration := 49 }]
            , msgTable := [{ chatID := 1, messageID := 10, encounterID := "B" }] }).2 := by
  have h := cleanup_discards_only_expired
    [{ defaultUser with id := 1, notify := true, cleanup := true }] 50
    { ledger := [("B", [1])]
    , encTable := [{ id := "A", expiration := 150 }, { id := "B", expiration := 49 }]
    , msgTable := [{ chatID := 1, messageID := 10, encounterID := "B" }] }
    { chatID := 1, messageID := 10, encounterID := "B" }
    (by decide) (by decide)
  exact ⟨h.1.trans (by decide), h.2.2.1.mpr (by decide)⟩

/-! ## Haversine evaluation lemmas -/

open Real in
theorem haversine_self (lat lon : ℝ) : haversine lat lon lat lon = 0 := by
  unfold haversine atan2
  simp only [sub_self, zero_mul, zero_div, Real.sin_zero, mul_zero, zero_add, add_zero]
  rw [Real.sqrt_zero, sub_zero, Real.sqrt_one, if_pos one_pos]
  simp [Real.arctan_zero]

open Real in
theorem haversine_zero_one : haversine 0 0 0 1 = 6371e3 * (π / 180) := by
  have hpi := Real.pi_pos
  have hy0 : (0:ℝ) ≤ π / 180 / 2 := by positivity
  have hylt : π / 180 / 2 < π / 2 := by nlinarith
  have hsin : 0 ≤ Real.sin (π / 180 / 2) :=
    Real.sin_nonneg_of_nonneg_of_le_pi hy0 (by nlinarith)
  have hcos : 0 < Real.cos (π / 180 / 2) :=
    Real.cos_pos_of_mem_Ioo ⟨by nlinarith, hylt⟩
  have hsq : 1 - Real.sin (π / 180 / 2) * Real.sin (π / 180 / 2)
      = Real.cos (π / 180 / 2) * Real.cos (π / 180 / 2) := by
    have h := Real.sin_sq_add_cos_sq (π / 180 / 2)
    rw [pow_two, pow_two] at h
    linarith
  unfold haversine atan2
  simp only [zero_mul, sub_zero, sub_self, Real.sin_zero, Real.cos_zero, one_mul,
    mul_zero, zero_add, zero_div, mul_one]
  rw [Real.sqrt_mul_self hsin, hsq, Real.sqrt_mul_self hcos.le, if_pos hcos]
  rw [← Real.tan_eq_sin_div_cos, Real.arctan_tan (by nlinarith) hylt]
  ring

/-- Counterexample to claim C6 as stated: the distance computed by
`haversine` between (0,0) and (0,1) is about 111195 m (Earth radius
6371e3), not within 50 m of 111320 m. -/
theorem haversine_not_near_111320 : ¬ (|haversine 0 0 0 1 - 111320| ≤ 50) := by
  rw [haversine_zero_one, abs_le]
  intro h
  nlinarith [Real.pi_lt_d6, h.1]

/-- Claim C6 (amended): `haversine` returns 0 on identical points, and the
distance between (0,0) and (0,1) is within 1 m of 111195 m, the value
implied by Earth radius 6371e3. -/
theorem haversine_correctness_amended :
    (∀ lat lon : ℝ, haversine lat lon lat lon = 0)
    ∧ |haversine 0 0 0 1 - 111195| ≤ 1 := by
  refine ⟨haversine_self, ?_⟩
  rw [haversine_zero_one, abs_le]
  constructor <;> nlinarith [Real.pi_gt_d6, Real.pi_lt_d6]

end PoGoBot
